import Mathlib

/-!
Verification of the SSDP audit-logger trust core
(packages/audit-logger/src: audit_logger.py, permission_guard.py,
encryption.py, compliance.py).

The Python code is embedded shallowly:

* Python values stored in heterogeneous dictionaries are modelled by the
  inductive type Value; Python dicts are association lists
  (List (String x Value)) whose update operation touches the first
  occurrence of a key, as Python assignment on an existing key does.
* The SHA-256 hash and the isoformat timestamp rendering are external
  library functions; they are modelled as parameters of an Env record.
  Theorems that need them to be collision-free take injectivity
  hypotheses, which the concrete witnesses discharge with explicitly
  injective instantiations.
* Timestamps are naturals (seconds since some epoch); datetime
  comparison is integer comparison, and the timedelta used by the
  retention sweep (days = 7 * 365) is 7 * 365 * 86400 seconds.
* Mutation of an object (self.logs.append, in-place list.sort,
  field assignment) is modelled by explicit state passing: each
  stateful method takes the current store and returns the new one.
* Fallible Python code (raising TypeError, failing decryption) is
  modelled with Except / Option results.
-/

/-- Model of a Python runtime value as stored in the heterogeneous
dictionaries the audit-logger code passes around. -/
inductive Value where
  | vnull : Value
  | vbool : Bool → Value
  | vint : Int → Value
  | vrat : Rat → Value
  | vstr : String → Value
  | vlist : List Value → Value
  | vdict : List (String × Value) → Value

/-- Python truthiness of a Value (used by the "if x:" guards in
audit_logger.py and compliance.py). -/
def Value.truthy : Value → Bool
  | .vnull => false
  | .vbool b => b
  | .vint n => n != 0
  | .vrat q => q != 0
  | .vstr s => !s.isEmpty
  | .vlist xs => !xs.isEmpty
  | .vdict d => !d.isEmpty

/-- Python str() applied to a Value.  Scalar renderings follow CPython;
the renderings of containers are abbreviated (no theorem below depends
on them). -/
def Value.pyStr : Value → String
  | .vnull => "None"
  | .vbool b => if b then "True" else "False"
  | .vint n => toString n
  | .vrat q => toString q
  | .vstr s => s
  | .vlist _ => "[...]"
  | .vdict _ => "\x7b...\x7d"

/-- Python numeric coercion: the values on which arithmetic such as
invoice[k] * 0.15 succeeds.  Floats are modelled as rationals. -/
def Value.asNum : Value → Option Rat
  | .vint n => some (n : Rat)
  | .vrat q => some q
  | .vbool b => some (if b then 1 else 0)
  | _ => none

/-- Assignment d[k] = v on a Python dict whose key k is already
present: replaces the value at the first (unique) occurrence of k,
leaving insertion order unchanged.  On a dict without the key it is the
identity; the embedded code only uses it after an "in" check. -/
def setField (k : String) (v : Value) : List (String × Value) → List (String × Value)
  | [] => []
  | (k', v') :: rest => if k' == k then (k', v) :: rest else (k', v') :: setField k v rest

/-- audit_logger.AuditAction (string enum). -/
inductive AuditAction where
  | create | read | update | delete | login | logout
  | access_denied | export | approve | reject
deriving DecidableEq, BEq

/-- The .value string of an AuditAction member. -/
def AuditAction.value : AuditAction → String
  | .create => "create"
  | .read => "read"
  | .update => "update"
  | .delete => "delete"
  | .login => "login"
  | .logout => "logout"
  | .access_denied => "access_denied"
  | .export => "export"
  | .approve => "approve"
  | .reject => "reject"

/-- audit_logger.ResourceType (string enum). -/
inductive ResourceType where
  | user | outlet | order | invoice | payment | sales_rep | driver
  | vehicle | product | route | report | system | phi | financial
deriving DecidableEq, BEq

/-- The .value string of a ResourceType member. -/
def ResourceType.value : ResourceType → String
  | .user => "user"
  | .outlet => "outlet"
  | .order => "order"
  | .invoice => "invoice"
  | .payment => "payment"
  | .sales_rep => "sales_rep"
  | .driver => "driver"
  | .vehicle => "vehicle"
  | .product => "product"
  | .route => "route"
  | .report => "report"
  | .system => "system"
  | .phi => "phi"
  | .financial => "financial"

/-- audit_logger.SeverityLevel (string enum). -/
inductive SeverityLevel where
  | info | warning | error | critical
deriving DecidableEq, BEq

/-- The .value string of a SeverityLevel member. -/
def SeverityLevel.value : SeverityLevel → String
  | .info => "info"
  | .warning => "warning"
  | .error => "error"
  | .critical => "critical"

/-- External library functions used by AuditLog: hashlib.sha256 (as a
string-to-string digest of the utf-8 data) and datetime.isoformat.
Both are kept abstract; theorems that rely on them being
collision-free state that as an injectivity hypothesis. -/
structure Env where
  hash : String → String
  tsRender : Nat → String

/-- audit_logger.AuditLog: one audit entry.  uuid and utcnow are
environment inputs, so id and timestamp are ordinary fields supplied
at construction. -/
structure AuditLog where
  id : String
  timestamp : Nat
  user_id : String
  action : AuditAction
  resource_type : ResourceType
  resource_id : String
  details : List (String × Value)
  ip_address : Option String
  user_agent : Option String
  severity : SeverityLevel
  checksum : String

/-- The f-string AuditLog._generate_checksum hashes:
timestamp.isoformat() + user_id + action + resource_type + resource_id
(string-enum members render as their .value). -/
def AuditLog.checksumData (env : Env) (l : AuditLog) : String :=
  env.tsRender l.timestamp ++ l.user_id ++ l.action.value
    ++ l.resource_type.value ++ l.resource_id

/-- AuditLog._generate_checksum. -/
def AuditLog.generateChecksum (env : Env) (l : AuditLog) : String :=
  env.hash (l.checksumData env)

/-- AuditLog.verify_integrity: recompute the checksum and compare with
the stored one. -/
def AuditLog.verifyIntegrity (env : Env) (l : AuditLog) : Bool :=
  l.checksum == l.generateChecksum env

/-- AuditLog.__init__: fields are set from the arguments (details
defaulting to the empty dict), then checksum is computed once from the
five checksummed fields. -/
def mkAuditLog (env : Env) (id : String) (now : Nat) (user_id : String)
    (action : AuditAction) (resource_type : ResourceType) (resource_id : String)
    (details : Option (List (String × Value))) (ip_address : Option String)
    (user_agent : Option String) (severity : SeverityLevel) : AuditLog :=
  let base : AuditLog :=
    { id := id, timestamp := now, user_id := user_id, action := action,
      resource_type := resource_type, resource_id := resource_id,
      details := details.getD [], ip_address := ip_address,
      user_agent := user_agent, severity := severity, checksum := "" }
  { base with checksum := base.generateChecksum env }

namespace AuditLogger

/-- AuditLogger.log: construct the entry, append it to self.logs
(persistence is a pass in the source) and return it.  The store is the
explicit state; uuid/utcnow arrive as newId/now. -/
def log (env : Env) (newId : String) (now : Nat) (user_id : String)
    (action : AuditAction) (resource_type : ResourceType) (resource_id : String)
    (details : Option (List (String × Value))) (ip_address : Option String)
    (user_agent : Option String) (severity : SeverityLevel)
    (store : List AuditLog) : AuditLog × List AuditLog :=
  let entry := mkAuditLog env newId now user_id action resource_type resource_id
    details ip_address user_agent severity
  (entry, store ++ [entry])

/-- AuditLogger.log_modification: wraps log with
details = some [("changes", changes)] when changes is truthy (a non-empty
dict), none otherwise, and severity fixed to info. -/
def logModification (env : Env) (newId : String) (now : Nat) (user_id : String)
    (action : AuditAction) (resource_type : ResourceType) (resource_id : String)
    (changes : Option (List (String × Value))) (ip_address : Option String)
    (store : List AuditLog) : AuditLog × List AuditLog :=
  let details : Option (List (String × Value)) :=
    match changes with
    | some c => if c.isEmpty then none else some [("changes", Value.vdict c)]
    | none => none
  log env newId now user_id action resource_type resource_id details
    ip_address none SeverityLevel.info store

end AuditLogger

/-- PermissionGuard._initialize_permissions: the static SSDP role
table. -/
def ssdpPermissions : List (String × List String) :=
  [ ("super_admin", ["*"]),
    ("regional_manager",
      ["read:outlet", "read:order", "read:sales_rep", "read:driver",
       "read:vehicle", "read:report", "read:invoice", "create:sales_rep",
       "update:sales_rep", "create:route", "update:route", "approve:order",
       "read:financial"]),
    ("sales_rep",
      ["read:outlet", "read:product", "create:order", "read:order",
       "update:order", "read:route", "create:outlet", "read:sales_rep"]),
    ("driver",
      ["read:route", "read:order", "update:order", "read:vehicle",
       "read:outlet"]),
    ("finance_officer",
      ["read:invoice", "create:invoice", "update:invoice", "read:payment",
       "create:payment", "read:order", "read:outlet", "read:financial",
       "export:financial", "read:report"]),
    ("outlet_owner",
      ["read:outlet", "read:order", "create:order", "read:invoice",
       "read:payment", "read:product"]) ]

/-- The action part of a permission string: everything before the first
colon, or the whole string when it has no colon
(permission.split with maxsplit 1, first component). -/
def permissionAction (permission : String) : String :=
  if ':' ∈ permission.data then String.mk (permission.data.takeWhile (fun c => c != ':'))
  else permission

/-- PermissionGuard.has_permission: unknown role is false; then the
"*" blanket grant, the exact permission, and the action:* wildcard are
tried, in the order of the source. -/
def hasPermission (permissions : List (String × List String))
    (user_role : String) (permission : String) : Bool :=
  match permissions.lookup user_role with
  | none => false
  | some role_permissions =>
    if role_permissions.contains "*" then true
    else if role_permissions.contains permission then true
    else role_permissions.contains (permissionAction permission ++ ":*")

/-- The permission predicate as the spec words it: the list holds the
exact string, or "*", or the action wildcard.  Stated separately from
hasPermission so that the two can be compared. -/
def specHasPermission (permissions : List (String × List String))
    (user_role : String) (permission : String) : Bool :=
  match permissions.lookup user_role with
  | none => false
  | some role_permissions =>
    role_permissions.contains permission || role_permissions.contains "*"
      || role_permissions.contains (permissionAction permission ++ ":*")

/-- PermissionGuard._map_action_to_audit_action: access_denied on
denial, else the mapped audit action, defaulting to read for action
strings outside the map. -/
def mapActionToAuditAction (action : String) (access_granted : Bool) : AuditAction :=
  if !access_granted then AuditAction.access_denied
  else
    (([("create", AuditAction.create), ("read", AuditAction.read),
       ("update", AuditAction.update), ("delete", AuditAction.delete),
       ("approve", AuditAction.approve), ("reject", AuditAction.reject),
       ("export", AuditAction.export)] : List (String × AuditAction)).lookup
      action).getD AuditAction.read

/-- PermissionGuard.check_access: build the permission string, evaluate
has_permission, log the attempt (warning/access_denied on denial, info
and the mapped action on grant) and return the decision together with
the new audit store. -/
def checkAccess (env : Env) (newId : String) (now : Nat)
    (permissions : List (String × List String)) (user_id : String)
    (user_role : String) (action : String) (resource_type : ResourceType)
    (resource_id : String) (ip_address : Option String)
    (store : List AuditLog) : Bool × List AuditLog :=
  let permission := action ++ ":" ++ resource_type.value
  let has_access := hasPermission permissions user_role permission
  let audit_action := mapActionToAuditAction action has_access
  let r := AuditLogger.log env newId now user_id audit_action resource_type
    resource_id
    (some [("user_role", Value.vstr user_role),
           ("permission_requested", Value.vstr permission),
           ("access_granted", Value.vbool has_access)])
    ip_address none
    (if !has_access then SeverityLevel.warning else SeverityLevel.info) store
  (has_access, r.2)

/-- Stable insertion into a timestamp-descending list: the inserted
entry goes before the first entry whose timestamp is not greater, so
that among equal timestamps an earlier original element stays first.
Together with sortByTimestampDesc this models the stable
list.sort(key = timestamp, reverse = True) of CPython. -/
def insertByTimestampDesc (l : AuditLog) : List AuditLog → List AuditLog
  | [] => [l]
  | x :: xs =>
    if x.timestamp ≤ l.timestamp then l :: x :: xs
    else x :: insertByTimestampDesc l xs

/-- Model of filtered_logs.sort(key = lambda x: x.timestamp,
reverse = True): a stable sort by timestamp descending. -/
def sortByTimestampDesc : List AuditLog → List AuditLog
  | [] => []
  | x :: xs => insertByTimestampDesc x (sortByTimestampDesc xs)

/-- Python truthiness of an optional string argument ("if user_id:"
skips the filter both for None and for the empty string). -/
def optStrTruthy : Option String → Bool
  | none => false
  | some s => !s.isEmpty

/-- One string-filter block of get_logs ("if user_id: filtered_logs =
[log for log in filtered_logs if ...]"): a falsy argument (None or the
empty string) leaves the current list alone. -/
def applyStrFilter (get : AuditLog → String) (arg : Option String)
    (logs : List AuditLog) : List AuditLog :=
  match arg with
  | some s => if s.isEmpty then logs else logs.filter (fun l => get l == s)
  | none => logs

/-- One filter block of get_logs whose argument is truthy whenever it
is supplied (enum members and datetimes are always truthy). -/
def applySomeFilter {β : Type} (test : AuditLog → β → Bool) (arg : Option β)
    (logs : List AuditLog) : List AuditLog :=
  match arg with
  | some b => logs.filter (fun l => test l b)
  | none => logs

/-- The filter chain of AuditLogger.get_logs, in source order. -/
def getLogsFiltered (user_id : Option String) (resource_type : Option ResourceType)
    (resource_id : Option String) (action : Option AuditAction)
    (from_date : Option Nat) (to_date : Option Nat)
    (logs : List AuditLog) : List AuditLog :=
  applySomeFilter (fun l d => decide (l.timestamp ≤ d)) to_date
    (applySomeFilter (fun l d => decide (d ≤ l.timestamp)) from_date
      (applySomeFilter (fun l a => l.action == a) action
        (applyStrFilter AuditLog.resource_id resource_id
          (applySomeFilter (fun l rt => l.resource_type == rt) resource_type
            (applyStrFilter AuditLog.user_id user_id logs)))))

/-- Whether any get_logs filter is truthy.  When none is, the local
name filtered_logs in the source is still an alias of self.logs, so
the in-place sort reorders the store itself. -/
def anyGetLogsFilter (user_id : Option String) (resource_type : Option ResourceType)
    (resource_id : Option String) (action : Option AuditAction)
    (from_date : Option Nat) (to_date : Option Nat) : Bool :=
  optStrTruthy user_id || resource_type.isSome || optStrTruthy resource_id
    || action.isSome || from_date.isSome || to_date.isSome

/-- AuditLogger.get_logs: filter, sort by timestamp descending in
place, truncate to limit.  Returns (result, new store): when every
filter is falsy the sorted list is the store (alias mutation),
otherwise the store is untouched. -/
def getLogs (user_id : Option String) (resource_type : Option ResourceType)
    (resource_id : Option String) (action : Option AuditAction)
    (from_date : Option Nat) (to_date : Option Nat) (limit : Nat)
    (logs : List AuditLog) : List AuditLog × List AuditLog :=
  let sorted := sortByTimestampDesc
    (getLogsFiltered user_id resource_type resource_id action from_date to_date logs)
  (sorted.take limit,
   if anyGetLogsFilter user_id resource_type resource_id action from_date to_date
   then logs else sorted)

/-- AuditLogger.cleanup_old_logs: cutoff is utcnow minus
timedelta(days = retention_years * 365) with retention_years = 7, in
seconds; entries at or after the cutoff are kept in order. -/
def cleanupOldLogs (now : Nat) (logs : List AuditLog) : List AuditLog :=
  logs.filter (fun l => decide ((now : Int) - 7 * 365 * 86400 ≤ (l.timestamp : Int)))

/-- Joining a list of strings with a one-character separator
(str.join in the source, with "," and a newline). -/
def joinChar (sep : Char) : List String → String
  | [] => ""
  | [s] => s
  | s :: rest => s ++ String.mk [sep] ++ joinChar sep rest

/-- The seven rendered column values of one CSV row of
AuditLogger.export_logs. -/
def csvFieldStrings (env : Env) (l : AuditLog) : List String :=
  [l.id, env.tsRender l.timestamp, l.user_id, l.action.value,
   l.resource_type.value, l.resource_id, l.severity.value]

/-- One CSV data row: the seven fields joined by commas with no
escaping or quoting, as the f-string in the source builds it. -/
def csvRow (env : Env) (l : AuditLog) : String :=
  joinChar ',' (csvFieldStrings env l)

/-- The fixed CSV header line of export_logs. -/
def csvHeader : String :=
  "id,timestamp,user_id,action,resource_type,resource_id,severity"

/-- The header column names. -/
def csvHeaderFields : List String :=
  ["id", "timestamp", "user_id", "action", "resource_type", "resource_id",
   "severity"]

/-- The CSV branch of AuditLogger.export_logs: fetch via
get_logs(from_date, to_date, limit = 10000) and join the header line
and the rows with newlines.  The JSON branch is not modelled.  The
second component is the store after the embedded get_logs call. -/
def exportLogsCsv (env : Env) (from_date : Option Nat) (to_date : Option Nat)
    (store : List AuditLog) : String × List AuditLog :=
  let r := getLogs none none none none from_date to_date 10000 store
  (joinChar '\n' (csvHeader :: r.1.map (csvRow env)), r.2)

/-- Splitting a character list at every occurrence of a separator
character; the pieces do not contain the separator. -/
def splitChar (sep : Char) : List Char → List (List Char)
  | [] => [[]]
  | c :: cs =>
    match splitChar sep cs with
    | [] => [[]]
    | h :: t => if c = sep then [] :: h :: t else (c :: h) :: t

/-- Splitting a string at a separator character (the parse directions
of the CSV dialect export_logs emits: rows at newlines, fields at
commas, no quoting). -/
def splitString (sep : Char) (s : String) : List String :=
  (splitChar sep s.data).map String.mk

/-- Parsing emitted CSV text back into rows of field values. -/
def parseCsv (s : String) : List (List String) :=
  (splitString '\n' s).map (splitString ',')

/-- compliance.ComplianceStandard (string enum). -/
inductive ComplianceStandard where
  | zatca | pdpl | hipaa | nphies
deriving DecidableEq, BEq

/-- compliance.ComplianceViolation.  Severity is the free string the
source uses; timestamp is utcnow at construction, passed in as now. -/
structure ComplianceViolation where
  standard : ComplianceStandard
  severity : String
  message : String
  field : Option String
  details : List (String × Value)
  timestamp : Nat

/-- ComplianceViolation.__init__ with the details-defaulting of the
source. -/
def mkViolation (standard : ComplianceStandard) (severity : String)
    (message : String) (field : Option String)
    (details : Option (List (String × Value))) (now : Nat) : ComplianceViolation :=
  { standard := standard, severity := severity, message := message,
    field := field, details := details.getD [], timestamp := now }

/-- The regex r"3\d\x7b12\x7d03" anchored at both ends: 15 characters,
all digits, starting with 3 and ending with 03. -/
def matchesSaudiVat (s : String) : Bool :=
  s.data.length == 15 && s.data.all Char.isDigit
    && s.data.headD ' ' == '3' && s.data.drop 13 == ['0', '3']

/-- round(x, 2) on the rational model of Python floats. -/
def round2 (q : Rat) : Rat := ((round (q * 100) : Int) : Rat) / 100

/-- ComplianceValidator._appears_encrypted: at least 20 characters,
all from the base64-ish class [A-Za-z0-9+/=_-]. -/
def appearsEncrypted (value : String) : Bool :=
  20 ≤ value.length && value.data.all
    (fun c => c.isAlphanum || c == '+' || c == '/' || c == '=' || c == '_' || c == '-')

/-- The required-field pass of validate_zatca_invoice: a critical
violation for each listed field that is absent or None. -/
def zatcaRequiredViolations (invoice : List (String × Value)) (now : Nat) :
    List ComplianceViolation :=
  ["invoice_number", "issue_date", "issue_time", "supplier_vat_number",
   "customer_name", "line_items", "total_excluding_vat", "vat_amount",
   "total_including_vat"].filterMap fun f =>
    match invoice.lookup f with
    | none => some (mkViolation .zatca "critical"
        ("Required field missing: " ++ f) (some f) none now)
    | some .vnull => some (mkViolation .zatca "critical"
        ("Required field missing: " ++ f) (some f) none now)
    | some _ => none

/-- The VAT-number format pass: when the field is present, str() it and
test the Saudi pattern. -/
def zatcaVatFormatViolations (invoice : List (String × Value)) (now : Nat) :
    List ComplianceViolation :=
  match invoice.lookup "supplier_vat_number" with
  | some v =>
    if matchesSaudiVat v.pyStr then []
    else [mkViolation .zatca "critical"
      "Invalid Saudi VAT number format. Must be 15 digits starting with 3 and ending with 03"
      (some "supplier_vat_number") none now]
  | none => []

/-- The VAT-arithmetic pass: when the three amount fields are present,
multiply and round; non-numeric values make the Python code raise
TypeError, modelled as Except.error. -/
def zatcaVatCalcViolations (invoice : List (String × Value)) (now : Nat) :
    Except String (List ComplianceViolation) :=
  match invoice.lookup "total_excluding_vat", invoice.lookup "vat_amount",
      invoice.lookup "total_including_vat" with
  | some vEx, some vVat, some _ =>
    match vEx.asNum, vVat.asNum with
    | some ex, some vat =>
      let expected := round2 (ex * (15 / 100))
      let actual := round2 vat
      if 1 / 100 < |expected - actual| then
        Except.ok [mkViolation .zatca "high"
          ("VAT calculation incorrect. Expected " ++ toString expected
            ++ ", got " ++ toString actual)
          (some "vat_amount")
          (some [("expected", Value.vrat expected), ("actual", Value.vrat actual)])
          now]
      else Except.ok []
    | _, _ => Except.error "TypeError"
  | _, _, _ => Except.ok []

/-- The line-item pass: when line_items is present and truthy, each
dict item without a truthy description yields a medium violation.  A
truthy non-list container or a non-dict, non-string item would make the
Python loop raise (or, for a string item with the substring present,
fault on indexing); those paths are modelled as Except.error. -/
def zatcaLineItemViolations (invoice : List (String × Value)) (now : Nat) :
    Except String (List ComplianceViolation) :=
  match invoice.lookup "line_items" with
  | some v =>
    if v.truthy then
      match v with
      | .vlist items =>
        (items.enum.mapM fun (it : Nat × Value) =>
          match it.2 with
          | .vdict d =>
            match d.lookup "description" with
            | none => Except.ok (some (mkViolation .zatca "medium"
                ("Line item " ++ toString (it.1 + 1) ++ " missing description")
                (some ("line_items[" ++ toString it.1 ++ "].description")) none now))
            | some dv =>
              if dv.truthy then Except.ok none
              else Except.ok (some (mkViolation .zatca "medium"
                ("Line item " ++ toString (it.1 + 1) ++ " missing description")
                (some ("line_items[" ++ toString it.1 ++ "].description")) none now))
          | _ => Except.error "TypeError") |>.map List.reduceOption
      | _ => Except.error "TypeError"
    else Except.ok []
  | none => Except.ok []

/-- ComplianceValidator.validate_zatca_invoice: the four passes in
source order, appended into one local violations list.  The method
never touches the self.violations accumulator. -/
def validateZatcaInvoice (invoice : List (String × Value)) (now : Nat) :
    Except String (List ComplianceViolation) := do
  let vatCalc ← zatcaVatCalcViolations invoice now
  let items ← zatcaLineItemViolations invoice now
  pure (zatcaRequiredViolations invoice now ++ zatcaVatFormatViolations invoice now
    ++ vatCalc ++ items)

/-- ComplianceValidator.validate_pdpl_data: encrypted-appearance check
on the PII field list, then the consent check for the listed data
types.  data_type arrives as a Value because validate_all passes
data.get("type", "unknown") through unchecked. -/
def validatePdplData (data : List (String × Value)) (data_type : Value)
    (now : Nat) : List ComplianceViolation :=
  let pii := ["national_id", "iqama_id", "passport_number", "phone", "email",
    "address", "birth_date"].filterMap fun f =>
    match data.lookup f with
    | some v =>
      if v.truthy then
        if appearsEncrypted v.pyStr then none
        else some (mkViolation .pdpl "critical"
          ("PII field \"" ++ f ++ "\" must be encrypted at rest") (some f) none now)
      else none
    | none => none
  let typed := match data_type with
    | .vstr s => s == "customer" || s == "outlet" || s == "employee"
    | _ => false
  let consent :=
    if typed then
      match data.lookup "consent_date" with
      | some v =>
        if v.truthy then []
        else [mkViolation .pdpl "high" "Data collection consent not documented"
          (some "consent_date") none now]
      | none => [mkViolation .pdpl "high" "Data collection consent not documented"
          (some "consent_date") none now]
    else []
  pii ++ consent

/-- ComplianceValidator.validate_hipaa_phi: the encrypted-appearance
check over the PHI field list, all critical. -/
def validateHipaaPhi (phi_data : List (String × Value)) (now : Nat) :
    List ComplianceViolation :=
  ["patient_id", "medical_record_number", "diagnosis", "treatment",
   "prescription", "lab_results"].filterMap fun f =>
    match phi_data.lookup f with
    | some v =>
      if v.truthy then
        if appearsEncrypted v.pyStr then none
        else some (mkViolation .hipaa "critical"
          ("PHI field \"" ++ f ++ "\" must be encrypted") (some f) none now)
      else none
    | none => none

/-- ComplianceValidator.validate_nphies_claim: required identifiers by
truthiness, then the BrainSAIT OID-prefix check on patient_id. -/
def validateNphiesClaim (claim : List (String × Value)) (now : Nat) :
    List ComplianceViolation :=
  let req := ["claim_id", "patient_id", "provider_id", "service_date",
    "diagnosis_code", "service_code"].filterMap fun f =>
    match claim.lookup f with
    | some v =>
      if v.truthy then none
      else some (mkViolation .nphies "critical"
        ("Required NPHIES field missing: " ++ f) (some f) none now)
    | none => some (mkViolation .nphies "critical"
        ("Required NPHIES field missing: " ++ f) (some f) none now)
  let oid := match claim.lookup "patient_id" with
    | some v =>
      if ("urn:oid:1.3.6.1.4.1.61026".data).isPrefixOf v.pyStr.data then []
      else [mkViolation .nphies "high"
        "Patient ID must use BrainSAIT OID namespace (1.3.6.1.4.1.61026)"
        (some "patient_id") none now]
    | none => []
  req ++ oid

/-- Insertion (or in-place update) of one key of a Python dict, used
for the results dict of validate_all. -/
def dictUpsert {α : Type} (k : ComplianceStandard) (v : α) :
    List (ComplianceStandard × α) → List (ComplianceStandard × α)
  | [] => [(k, v)]
  | (k', v') :: rest =>
    if k' == k then (k', v) :: rest else (k', v') :: dictUpsert k v rest

/-- ComplianceValidator.validate_all: dispatch per requested standard,
building the results dict in iteration order. -/
def validateAll (data : List (String × Value))
    (standards : List ComplianceStandard) (now : Nat) :
    Except String (List (ComplianceStandard × List ComplianceViolation)) :=
  standards.foldlM (fun results std =>
    match std with
    | .zatca => do
      let v ← validateZatcaInvoice data now
      pure (dictUpsert std v results)
    | .pdpl => pure (dictUpsert std
        (validatePdplData data ((data.lookup "type").getD (Value.vstr "unknown")) now)
        results)
    | .hipaa => pure (dictUpsert std (validateHipaaPhi data now) results)
    | .nphies => pure (dictUpsert std (validateNphiesClaim data now) results))
    []

/-- ComplianceValidator: the instance state is the violations
accumulator created empty by __init__. -/
structure ComplianceValidator where
  violations : List ComplianceViolation

/-- ComplianceValidator(): fresh accumulator. -/
def freshValidator : ComplianceValidator := { violations := [] }

/-- The result dict of get_compliance_report. -/
structure ComplianceReport where
  total_violations : Nat
  by_standard : List (ComplianceStandard × Nat)
  by_severity : List (String × Nat)
  is_compliant : Bool
  critical_violations : Nat

/-- violations_by_severity[violation.severity] += 1: a KeyError (None
result) unless the severity is one of the four preset keys. -/
def bumpSeverity (m : List (String × Nat)) (sev : String) :
    Option (List (String × Nat)) :=
  if (m.lookup sev).isSome then
    some (m.map fun p => if p.1 == sev then (p.1, p.2 + 1) else p)
  else none

/-- Appending one violation to its standard's group. -/
def appendByStandard (m : List (ComplianceStandard × List ComplianceViolation))
    (v : ComplianceViolation) : List (ComplianceStandard × List ComplianceViolation) :=
  match m.lookup v.standard with
  | some vs => dictUpsert v.standard (vs ++ [v]) m
  | none => m ++ [(v.standard, [v])]

/-- ComplianceValidator.get_compliance_report over the accumulator:
group by standard, count by severity (raising KeyError, modelled as
none, for a severity outside the four preset keys), and report
is_compliant iff the accumulator is empty. -/
def getComplianceReport (vs : List ComplianceViolation) : Option ComplianceReport := do
  let st ← vs.foldlM (fun acc v => do
      let m ← bumpSeverity acc.2 v.severity
      pure (appendByStandard acc.1 v, m))
    (([] : List (ComplianceStandard × List ComplianceViolation)),
     [("critical", 0), ("high", 0), ("medium", 0), ("low", 0)])
  pure { total_violations := vs.length,
         by_standard := st.1.map fun p => (p.1, p.2.length),
         by_severity := st.2,
         is_compliant := vs.length == 0,
         critical_violations := (st.2.lookup "critical").getD 0 }

/-- One validate_* method invocation, for reasoning about arbitrary
call sequences on a validator instance. -/
inductive ValidateCall where
  | zatca (invoice : List (String × Value))
  | pdpl (data : List (String × Value)) (data_type : Value)
  | hipaa (phi_data : List (String × Value))
  | nphies (claim : List (String × Value))
  | all (data : List (String × Value)) (standards : List ComplianceStandard)

/-- Running one validate_* method on a validator instance: each method
body only builds and returns a local list (or raises), so the
instance state it returns is the one it received. -/
def runValidateCall (σ : ComplianceValidator) (c : ValidateCall) (now : Nat) :
    ComplianceValidator :=
  match c with
  | .zatca invoice =>
    let _ := validateZatcaInvoice invoice now
    σ
  | .pdpl data data_type =>
    let _ := validatePdplData data data_type now
    σ
  | .hipaa phi_data =>
    let _ := validateHipaaPhi phi_data now
    σ
  | .nphies claim =>
    let _ := validateNphiesClaim claim now
    σ
  | .all data standards =>
    let _ := validateAll data standards now
    σ

/-- A sequence of validate_* calls on a validator instance. -/
def runValidateCalls (σ : ComplianceValidator) (cs : List ValidateCall)
    (now : Nat) : ComplianceValidator :=
  cs.foldl (fun s c => runValidateCall s c now) σ

/-- One iteration of the encrypt_dict loop for one field name: when
the field is present with a non-None value, replace it by
encrypt(str(value)); enc is the Fernet encrypt-to-text primitive of
the external cryptography library, kept abstract. -/
def encStep (enc : String → String) (d : List (String × Value)) (f : String) :
    List (String × Value) :=
  match d.lookup f with
  | some .vnull => d
  | some v => setField f (.vstr (enc v.pyStr)) d
  | none => d

/-- EncryptionService.encrypt_dict: a copy of the record with each
named, present, non-None field replaced by its ciphertext. -/
def encryptDict (enc : String → String) (data : List (String × Value))
    (fields_to_encrypt : List String) : List (String × Value) :=
  fields_to_encrypt.foldl (encStep enc) data

/-- One iteration of the decrypt_dict loop for one field name: a
present, non-None field is passed to decrypt inside try/except - on
any failure (malformed token, or a non-string value, whose .encode
raises before decryption starts) the field is left unchanged.  dec is
the fallible Fernet decrypt primitive, none modelling the exception. -/
def decStep (dec : String → Option String) (d : List (String × Value)) (f : String) :
    List (String × Value) :=
  match d.lookup f with
  | some .vnull => d
  | some (.vstr s) =>
    match dec s with
    | some p => setField f (.vstr p) d
    | none => d
  | some _ => d
  | none => d

/-- EncryptionService.decrypt_dict: a copy of the record with each
named, present, non-None field replaced by its plaintext when
decryption succeeds, and left unchanged when it fails. -/
def decryptDict (dec : String → Option String) (data : List (String × Value))
    (fields_to_decrypt : List String) : List (String × Value) :=
  fields_to_decrypt.foldl (decStep dec) data

/-- A concrete instantiation of the abstract cipher used by witnesses
and counterexamples: prepend a marker character; decryption strips it
and fails on strings that do not carry it.  It satisfies the Fernet
round-trip law dec (enc s) = some s. -/
def concreteEnc (s : String) : String := String.mk ('E' :: s.data)

/-- Inverse of concreteEnc, failing on unmarked strings. -/
def concreteDec (s : String) : Option String :=
  match s.data with
  | 'E' :: rest => some (String.mk rest)
  | _ => none

/-- A concrete environment for witnesses: the identity as the digest
and a unary timestamp rendering, both injective. -/
def witnessEnv : Env :=
  { hash := fun s => s, tsRender := fun t => String.mk (List.replicate t '1') }

/-- A sample entry for concrete checks: a read of outlet OUT001 by
user123, created through the real constructor. -/
def sampleLog (idStr : String) (ts : Nat) : AuditLog :=
  mkAuditLog witnessEnv idStr ts "user123" AuditAction.read ResourceType.outlet
    "OUT001" none none none SeverityLevel.info

/-- An entry whose resource_id contains the CSV delimiter. -/
def commaLog : AuditLog :=
  mkAuditLog witnessEnv "id1" 3 "user123" AuditAction.read ResourceType.outlet
    "OUT,1" none none none SeverityLevel.info

theorem hasPermission_eq_spec (perms : List (String × List String))
    (role p : String) : hasPermission perms role p = specHasPermission perms role p := by
  unfold hasPermission specHasPermission
  cases h : perms.lookup role with
  | none => rfl
  | some rp =>
    by_cases h1 : rp.contains "*" <;> by_cases h2 : rp.contains p <;>
      simp [h1, h2, Bool.or_comm, Bool.or_left_comm, Bool.or_assoc]

/-- C7: has_permission is false for unknown roles, and otherwise true
exactly when the role list holds the exact permission, the "*" blanket
grant, or the action:* wildcard; the evaluation-order difference
(source tries "*" before the exact match) cannot change the result, so
the function agrees with the spec-side predicate everywhere, and
super_admin is granted every permission string. -/
theorem hasPermission_spec_equiv (role p : String) :
    hasPermission ssdpPermissions role p = specHasPermission ssdpPermissions role p
    ∧ hasPermission ssdpPermissions "super_admin" p = true
    ∧ (ssdpPermissions.lookup role = none →
        hasPermission ssdpPermissions role p = false) := by
  refine ⟨hasPermission_eq_spec _ _ _, rfl, fun h => ?_⟩
  unfold hasPermission
  rw [h]

/-- Closed instance of hasPermission_spec_equiv: a role absent from
the table is denied, super_admin is granted an arbitrary permission. -/
theorem hasPermission_spec_equiv_witness :
    hasPermission ssdpPermissions "ghost" "read:outlet" = false
    ∧ hasPermission ssdpPermissions "super_admin" "launch:rocket" = true :=
  ⟨(hasPermission_spec_equiv "ghost" "read:outlet").2.2 rfl,
   (hasPermission_spec_equiv "ghost" "launch:rocket").2.1⟩

/-- C5 (amended): log_modification records severity info for every
action, destructive ones included; it appends exactly the returned
entry to the store.  The source passes SeverityLevel.INFO
unconditionally, so no escalation to warning happens for delete. -/
theorem logModification_severity_info_amended (env : Env) (newId : String)
    (now : Nat) (uid : String) (act : AuditAction) (rt : ResourceType)
    (rid : String) (changes : Option (List (String × Value)))
    (ip : Option String) (st : List AuditLog) :
    ((AuditLogger.logModification env newId now uid act rt rid changes ip st).1).severity
        = SeverityLevel.info
    ∧ (AuditLogger.logModification env newId now uid act rt rid changes ip st).2
        = st ++ [(AuditLogger.logModification env newId now uid act rt rid changes ip st).1] := by
  exact ⟨rfl, rfl⟩

/-- C5 counterexample: a delete recorded through log_modification gets
severity info, not the warning the claim requires for destructive
actions. -/
theorem logModification_delete_counterexample :
    ((AuditLogger.logModification witnessEnv "id-1" 10 "user123" AuditAction.delete
        ResourceType.order "ORD001" (some [("status", Value.vstr "deleted")])
        none []).1).severity = SeverityLevel.info
    ∧ SeverityLevel.info ≠ SeverityLevel.warning :=
  ⟨rfl, by decide⟩

/-- C3: with no filters supplied, get_logs sorts the store itself in
place (filtered_logs aliases self.logs), so a store appended in
chronological order [1, 2] is left reordered to [2, 1] by a pure
query, contradicting the frame condition of the spec. -/
theorem getLogs_inplace_sort_mutates_store :
    ((getLogs none none none none none none 100
        [sampleLog "a" 1, sampleLog "b" 2]).2).map AuditLog.timestamp = [2, 1]
    ∧ ([sampleLog "a" 1, sampleLog "b" 2]).map AuditLog.timestamp = [1, 2]
    ∧ ([2, 1] : List Nat) ≠ [1, 2]
    ∧ ((getLogs none none none none none none 100
        [sampleLog "a" 1, sampleLog "b" 2]).1).map AuditLog.timestamp = [2, 1] :=
  ⟨rfl, rfl, by decide, rfl⟩

/-- C8: cleanup_old_logs keeps the surviving entries unchanged and in
order (a sublist of the store), and an entry survives exactly when its
timestamp does not precede the cutoff now minus the retention period
(implemented as timedelta(days = 7 * 365)). -/
theorem cleanupOldLogs_retention (now : Nat) (logs : List AuditLog) :
    (cleanupOldLogs now logs).Sublist logs
    ∧ ∀ l ∈ logs, (l ∈ cleanupOldLogs now logs ↔
        ¬ ((l.timestamp : Int) < (now : Int) - 7 * 365 * 86400)) := by
  refine ⟨List.filter_sublist _, fun l hl => ?_⟩
  simp [cleanupOldLogs, List.mem_filter, hl, not_lt]

/-- Closed instance of cleanupOldLogs_retention: with now just past
the retention window, an epoch-old entry is removed and a recent one
is retained. -/
theorem cleanupOldLogs_retention_witness :
    sampleLog "b" 10 ∈ cleanupOldLogs (7 * 365 * 86400 + 5) [sampleLog "a" 0, sampleLog "b" 10]
    ∧ sampleLog "a" 0 ∉ cleanupOldLogs (7 * 365 * 86400 + 5) [sampleLog "a" 0, sampleLog "b" 10] :=
  ⟨((cleanupOldLogs_retention (7 * 365 * 86400 + 5)
        [sampleLog "a" 0, sampleLog "b" 10]).2 (sampleLog "b" 10)
      (by simp)).mpr (by decide),
   fun h => ((cleanupOldLogs_retention (7 * 365 * 86400 + 5)
        [sampleLog "a" 0, sampleLog "b" 10]).2 (sampleLog "a" 0)
      (by simp)).mp h (by decide)⟩

/-- C2: a denied check_access appends exactly one audit entry, with
severity warning, the access_denied action, and details holding the
role, the requested permission string and access_granted = false; the
call returns false (denial is a value, not an exception: the
embedding is a total function). -/
theorem checkAccess_denied_audit (env : Env) (newId : String) (now : Nat)
    (perms : List (String × List String)) (uid role action : String)
    (rt : ResourceType) (rid : String) (ip : Option String) (st : List AuditLog)
    (h : hasPermission perms role (action ++ ":" ++ rt.value) = false) :
    ∃ e, checkAccess env newId now perms uid role action rt rid ip st = (false, st ++ [e])
      ∧ e.severity = SeverityLevel.warning
      ∧ e.action = AuditAction.access_denied
      ∧ e.details = [("user_role", Value.vstr role),
          ("permission_requested", Value.vstr (action ++ ":" ++ rt.value)),
          ("access_granted", Value.vbool false)] := by
  refine ⟨mkAuditLog env newId now uid AuditAction.access_denied rt rid
      (some [("user_role", Value.vstr role),
        ("permission_requested", Value.vstr (action ++ ":" ++ rt.value)),
        ("access_granted", Value.vbool false)]) ip none SeverityLevel.warning,
    ?_, rfl, rfl, rfl⟩
  simp only [checkAccess, h]
  rfl

/-- Closed instance of checkAccess_denied_audit: a driver attempting
delete:outlet is denied and audited with warning severity. -/
theorem checkAccess_denied_audit_witness :
    ∃ e, checkAccess witnessEnv "id-2" 20 ssdpPermissions "user9" "driver" "delete"
          ResourceType.outlet "OUT001" none [] = (false, [] ++ [e])
      ∧ e.severity = SeverityLevel.warning
      ∧ e.action = AuditAction.access_denied
      ∧ e.details = [("user_role", Value.vstr "driver"),
          ("permission_requested", Value.vstr ("delete" ++ ":" ++ ResourceType.outlet.value)),
          ("access_granted", Value.vbool false)] :=
  checkAccess_denied_audit witnessEnv "id-2" 20 ssdpPermissions "user9" "driver"
    "delete" ResourceType.outlet "OUT001" none [] (by decide)

/-- C10: a granted check_access whose action string is outside the
seven-entry map (create/read/update/delete/approve/reject/export)
falls back to AuditAction.READ, so the appended entry misrecords the
action as a read while access_granted remains true. -/
theorem checkAccess_unmapped_action_logged_as_read (env : Env) (newId : String)
    (now : Nat) (perms : List (String × List String)) (uid role action : String)
    (rt : ResourceType) (rid : String) (ip : Option String) (st : List AuditLog)
    (hgrant : hasPermission perms role (action ++ ":" ++ rt.value) = true)
    (hunmapped : action ∉ ["create", "read", "update", "delete", "approve",
        "reject", "export"]) :
    ∃ e, checkAccess env newId now perms uid role action rt rid ip st = (true, st ++ [e])
      ∧ e.action = AuditAction.read
      ∧ e.details = [("user_role", Value.vstr role),
          ("permission_requested", Value.vstr (action ++ ":" ++ rt.value)),
          ("access_granted", Value.vbool true)] := by
  simp only [List.mem_cons, List.mem_singleton, not_or] at hunmapped
  obtain ⟨h1, h2, h3, h4, h5, h6, h7, -⟩ := hunmapped
  have e : ∀ s : String, action ≠ s → (action == s) = false := fun s hs =>
    beq_eq_false_iff_ne.mpr hs
  have hmap : mapActionToAuditAction action true = AuditAction.read := by
    simp [mapActionToAuditAction, List.lookup, e _ h1, e _ h2, e _ h3, e _ h4,
      e _ h5, e _ h6, e _ h7]
  refine ⟨mkAuditLog env newId now uid AuditAction.read rt rid
      (some [("user_role", Value.vstr role),
        ("permission_requested", Value.vstr (action ++ ":" ++ rt.value)),
        ("access_granted", Value.vbool true)]) ip none SeverityLevel.info,
    ?_, rfl, rfl⟩
  simp only [checkAccess, hgrant, hmap]
  rfl

/-- Closed instance of checkAccess_unmapped_action_logged_as_read:
super_admin performing a granted "login" action is audited as a
read. -/
theorem checkAccess_unmapped_action_witness :
    ∃ e, checkAccess witnessEnv "id-3" 30 ssdpPermissions "user1" "super_admin"
          "login" ResourceType.system "sys" none [] = (true, [] ++ [e])
      ∧ e.action = AuditAction.read
      ∧ e.details = [("user_role", Value.vstr "super_admin"),
          ("permission_requested", Value.vstr ("login" ++ ":" ++ ResourceType.system.value)),
          ("access_granted", Value.vbool true)] :=
  checkAccess_unmapped_action_logged_as_read witnessEnv "id-3" 30 ssdpPermissions
    "user1" "super_admin" "login" ResourceType.system "sys" none [] (by decide) (by decide)

theorem str_append_cancel_left {a b c : String} (h : a ++ b = a ++ c) : b = c := by
  apply String.ext
  have hd := congrArg String.data h
  simp only [String.data_append] at hd
  exact List.append_cancel_left hd

theorem str_append_cancel_right {a b c : String} (h : a ++ c = b ++ c) : a = b := by
  apply String.ext
  have hd := congrArg String.data h
  simp only [String.data_append] at hd
  exact List.append_cancel_right hd

theorem auditAction_value_injective : Function.Injective AuditAction.value := by
  intro a b
  cases a <;> cases b <;> decide

theorem resourceType_value_injective : Function.Injective ResourceType.value := by
  intro a b
  cases a <;> cases b <;> decide

/-- C1 (amended): for a collision-free digest and timestamp rendering,
verify_integrity is true immediately after construction and becomes
false after mutating any of the five checksummed fields (timestamp,
user_id, action, resource_type, resource_id) to a different value;
mutating a field outside the checksum, such as severity, leaves
verify_integrity true. -/
theorem auditLog_tamper_detection_amended (env : Env)
    (hh : Function.Injective env.hash) (ht : Function.Injective env.tsRender)
    (id : String) (ts : Nat) (uid : String) (act : AuditAction)
    (rt : ResourceType) (rid : String) (details : Option (List (String × Value)))
    (ip ua : Option String) (sev : SeverityLevel) :
    AuditLog.verifyIntegrity env (mkAuditLog env id ts uid act rt rid details ip ua sev) = true
    ∧ (∀ ts', ts' ≠ ts → AuditLog.verifyIntegrity env
        { mkAuditLog env id ts uid act rt rid details ip ua sev with timestamp := ts' } = false)
    ∧ (∀ u', u' ≠ uid → AuditLog.verifyIntegrity env
        { mkAuditLog env id ts uid act rt rid details ip ua sev with user_id := u' } = false)
    ∧ (∀ a', a' ≠ act → AuditLog.verifyIntegrity env
        { mkAuditLog env id ts uid act rt rid details ip ua sev with action := a' } = false)
    ∧ (∀ r', r' ≠ rt → AuditLog.verifyIntegrity env
        { mkAuditLog env id ts uid act rt rid details ip ua sev with resource_type := r' } = false)
    ∧ (∀ i', i' ≠ rid → AuditLog.verifyIntegrity env
        { mkAuditLog env id ts uid act rt rid details ip ua sev with resource_id := i' } = false)
    ∧ (∀ sev', AuditLog.verifyIntegrity env
        { mkAuditLog env id ts uid act rt rid details ip ua sev with severity := sev' } = true) := by
  refine ⟨beq_self_eq_true _, ?_, ?_, ?_, ?_, ?_, fun sev' => beq_self_eq_true _⟩
  · intro ts' hne
    show (env.hash (env.tsRender ts ++ uid ++ act.value ++ rt.value ++ rid)
        == env.hash (env.tsRender ts' ++ uid ++ act.value ++ rt.value ++ rid)) = false
    rw [beq_eq_false_iff_ne]
    intro hEq
    have hd := hh hEq
    exact hne (ht (str_append_cancel_right (str_append_cancel_right
      (str_append_cancel_right (str_append_cancel_right hd))))).symm
  · intro u' hne
    show (env.hash (env.tsRender ts ++ uid ++ act.value ++ rt.value ++ rid)
        == env.hash (env.tsRender ts ++ u' ++ act.value ++ rt.value ++ rid)) = false
    rw [beq_eq_false_iff_ne]
    intro hEq
    have hd := hh hEq
    exact hne (str_append_cancel_left (str_append_cancel_right
      (str_append_cancel_right (str_append_cancel_right hd)))).symm
  · intro a' hne
    show (env.hash (env.tsRender ts ++ uid ++ act.value ++ rt.value ++ rid)
        == env.hash (env.tsRender ts ++ uid ++ a'.value ++ rt.value ++ rid)) = false
    rw [beq_eq_false_iff_ne]
    intro hEq
    have hd := hh hEq
    exact hne (auditAction_value_injective (str_append_cancel_left
      (str_append_cancel_right (str_append_cancel_right hd)))).symm
  · intro r' hne
    show (env.hash (env.tsRender ts ++ uid ++ act.value ++ rt.value ++ rid)
        == env.hash (env.tsRender ts ++ uid ++ act.value ++ r'.value ++ rid)) = false
    rw [beq_eq_false_iff_ne]
    intro hEq
    have hd := hh hEq
    exact hne (resourceType_value_injective (str_append_cancel_left
      (str_append_cancel_right hd))).symm
  · intro i' hne
    show (env.hash (env.tsRender ts ++ uid ++ act.value ++ rt.value ++ rid)
        == env.hash (env.tsRender ts ++ uid ++ act.value ++ rt.value ++ i')) = false
    rw [beq_eq_false_iff_ne]
    intro hEq
    have hd := hh hEq
    exact hne (str_append_cancel_left hd).symm

/-- C1 counterexample to "mutating any field breaks verify_integrity":
severity is not part of the checksum, so corrupting it from info to
critical is not detected - verify_integrity stays true. -/
theorem auditLog_mutation_severity_counterexample :
    AuditLog.verifyIntegrity witnessEnv
        { sampleLog "c1" 5 with severity := SeverityLevel.critical } = true
    ∧ (sampleLog "c1" 5).severity ≠ SeverityLevel.critical :=
  ⟨rfl, by decide⟩

theorem witnessEnv_tsRender_injective : Function.Injective witnessEnv.tsRender := by
  intro a b h
  have hl := congrArg (fun s => s.data.length) h
  simpa [witnessEnv] using hl

/-- Closed instance of auditLog_tamper_detection_amended at the
identity digest and a unary timestamp rendering. -/
theorem auditLog_tamper_detection_witness :
    AuditLog.verifyIntegrity witnessEnv
        (mkAuditLog witnessEnv "w1" 4 "u" AuditAction.read ResourceType.outlet "O1"
          none none none SeverityLevel.info) = true
    ∧ AuditLog.verifyIntegrity witnessEnv
        { mkAuditLog witnessEnv "w1" 4 "u" AuditAction.read ResourceType.outlet "O1"
          none none none SeverityLevel.info with timestamp := 9 } = false
    ∧ AuditLog.verifyIntegrity witnessEnv
        { mkAuditLog witnessEnv "w1" 4 "u" AuditAction.read ResourceType.outlet "O1"
          none none none SeverityLevel.info with user_id := "v" } = false
    ∧ AuditLog.verifyIntegrity witnessEnv
        { mkAuditLog witnessEnv "w1" 4 "u" AuditAction.read ResourceType.outlet "O1"
          none none none SeverityLevel.info with action := AuditAction.update } = false
    ∧ AuditLog.verifyIntegrity witnessEnv
        { mkAuditLog witnessEnv "w1" 4 "u" AuditAction.read ResourceType.outlet "O1"
          none none none SeverityLevel.info with resource_type := ResourceType.order } = false
    ∧ AuditLog.verifyIntegrity witnessEnv
        { mkAuditLog witnessEnv "w1" 4 "u" AuditAction.read ResourceType.outlet "O1"
          none none none SeverityLevel.info with resource_id := "O2" } = false
    ∧ AuditLog.verifyIntegrity witnessEnv
        { mkAuditLog witnessEnv "w1" 4 "u" AuditAction.read ResourceType.outlet "O1"
          none none none SeverityLevel.info with severity := SeverityLevel.critical } = true := by
  obtain ⟨t1, t2, t3, t4, t5, t6, t7⟩ := auditLog_tamper_detection_amended witnessEnv
    (fun a b h => h) witnessEnv_tsRender_injective "w1" 4 "u" AuditAction.read
    ResourceType.outlet "O1" none none none SeverityLevel.info
  exact ⟨t1, t2 9 (by decide), t3 "v" (by decide), t4 AuditAction.update (by decide),
    t5 ResourceType.order (by decide), t6 "O2" (by decide), t7 SeverityLevel.critical⟩

theorem runValidateCall_state (σ : ComplianceValidator) (c : ValidateCall)
    (now : Nat) : runValidateCall σ c now = σ := by
  cases c <;> rfl

theorem runValidateCalls_state (σ : ComplianceValidator) (cs : List ValidateCall)
    (now : Nat) : runValidateCalls σ cs now = σ := by
  induction cs generalizing σ with
  | nil => rfl
  | cons c cs ih =>
    show runValidateCalls (runValidateCall σ c now) cs now = σ
    rw [runValidateCall_state, ih]

theorem getComplianceReport_is_compliant (vs : List ComplianceViolation)
    (r : ComplianceReport) (h : getComplianceReport vs = some r) :
    r.is_compliant = (vs.length == 0) := by
  unfold getComplianceReport at h
  cases hf : (List.foldlM
      (fun acc v => do
        let m ← bumpSeverity acc.2 v.severity
        pure (appendByStandard acc.1 v, m))
      (([] : List (ComplianceStandard × List ComplianceViolation)),
       [("critical", 0), ("high", 0), ("medium", 0), ("low", 0)]) vs :
      Option (List (ComplianceStandard × List ComplianceViolation) × List (String × Nat))) with
  | none => rw [hf] at h; exact absurd h (by simp)
  | some st =>
    rw [hf] at h
    simp only [Option.pure_def, Option.bind_eq_bind, Option.some_bind,
      Option.some.injEq] at h
    rw [← h]

/-- C6: no validate_* call (nor validate_all, nor any sequence of
them) changes the violations accumulator of a validator instance; the
report over a freshly constructed validator after any such sequence
shows zero violations and is_compliant, and whenever the report
succeeds its is_compliant flag is true exactly when the accumulator is
empty. -/
theorem complianceValidator_frame (σ : ComplianceValidator)
    (cs : List ValidateCall) (now : Nat) :
    (runValidateCalls σ cs now).violations = σ.violations
    ∧ getComplianceReport (runValidateCalls freshValidator cs now).violations
        = some { total_violations := 0, by_standard := [],
                 by_severity := [("critical", 0), ("high", 0), ("medium", 0), ("low", 0)],
                 is_compliant := true, critical_violations := 0 }
    ∧ (∀ r, getComplianceReport σ.violations = some r →
        (r.is_compliant = true ↔ σ.violations = [])) := by
  refine ⟨by rw [runValidateCalls_state], by rw [runValidateCalls_state]; rfl,
    fun r hr => ?_⟩
  rw [getComplianceReport_is_compliant σ.violations r hr]
  simp [List.length_eq_zero]

/-- Closed instance of complianceValidator_frame: a zatca plus pdpl
call sequence leaves a fresh accumulator empty, and a validator whose
accumulator holds one critical violation reports non-compliance. -/
theorem complianceValidator_frame_witness :
    (runValidateCalls freshValidator
        [ValidateCall.zatca [], ValidateCall.pdpl [] (Value.vstr "customer")] 0).violations = []
    ∧ getComplianceReport (runValidateCalls freshValidator
        [ValidateCall.zatca [], ValidateCall.pdpl [] (Value.vstr "customer")] 0).violations
        = some { total_violations := 0, by_standard := [],
                 by_severity := [("critical", 0), ("high", 0), ("medium", 0), ("low", 0)],
                 is_compliant := true, critical_violations := 0 }
    ∧ (({ total_violations := 1,
          by_standard := [(ComplianceStandard.zatca, 1)],
          by_severity := [("critical", 1), ("high", 0), ("medium", 0), ("low", 0)],
          is_compliant := false, critical_violations := 1 } :
          ComplianceReport).is_compliant = true ↔
        ([mkViolation ComplianceStandard.zatca "critical" "m" none none 0] :
          List ComplianceViolation) = []) :=
  ⟨(complianceValidator_frame freshValidator
      [ValidateCall.zatca [], ValidateCall.pdpl [] (Value.vstr "customer")] 0).1,
   (complianceValidator_frame freshValidator
      [ValidateCall.zatca [], ValidateCall.pdpl [] (Value.vstr "customer")] 0).2.1,
   (complianceValidator_frame
      ⟨[mkViolation ComplianceStandard.zatca "critical" "m" none none 0]⟩ [] 0).2.2
     _ rfl⟩

theorem stringMk_data (s : String) : String.mk s.data = s := by
  cases s
  rfl

theorem splitChar_ne_nil (sep : Char) (cs : List Char) : splitChar sep cs ≠ [] := by
  cases cs with
  | nil => simp [splitChar]
  | cons c cs =>
    simp only [splitChar]
    cases h : splitChar sep cs with
    | nil => simp
    | cons hd tl => by_cases hc : c = sep <;> simp [hc]

theorem splitChar_sepFree (sep : Char) (cs : List Char) (h : sep ∉ cs) :
    splitChar sep cs = [cs] := by
  induction cs with
  | nil => rfl
  | cons c cs ih =>
    simp only [List.mem_cons, not_or] at h
    have hc : ¬ (c = sep) := fun e => h.1 e.symm
    simp [splitChar, ih h.2, hc]

theorem splitChar_append (sep : Char) (xs ys : List Char) (h : sep ∉ xs) :
    splitChar sep (xs ++ sep :: ys) = xs :: splitChar sep ys := by
  induction xs with
  | nil =>
    cases hs : splitChar sep ys with
    | nil => exact absurd hs (splitChar_ne_nil _ _)
    | cons hd tl => simp [splitChar, hs]
  | cons x xs ih =>
    simp only [List.mem_cons, not_or] at h
    have hc : ¬ (x = sep) := fun e => h.1 e.symm
    simp [splitChar, ih h.2, hc]

theorem joinChar_data_cons (sep : Char) (s : String) (l : List String) (h : l ≠ []) :
    (joinChar sep (s :: l)).data = s.data ++ sep :: (joinChar sep l).data := by
  cases l with
  | nil => exact absurd rfl h
  | cons t ts => simp [joinChar, String.data_append]

theorem splitString_joinChar (sep : Char) (l : List String) (hne : l ≠ [])
    (h : ∀ s ∈ l, sep ∉ s.data) : splitString sep (joinChar sep l) = l := by
  induction l with
  | nil => exact absurd rfl hne
  | cons s l ih =>
    cases l with
    | nil =>
      simp [splitString, joinChar,
        splitChar_sepFree sep s.data (h s (by simp)), stringMk_data]
    | cons t ts =>
      have ihr := ih (by simp) (fun x hx => h x (by simp [hx]))
      simp only [splitString] at ihr ⊢
      rw [joinChar_data_cons sep s (t :: ts) (by simp),
        splitChar_append sep s.data _ (h s (by simp)), List.map_cons,
        stringMk_data, ihr]

theorem joinChar_not_mem (sep c : Char) (l : List String) (hcs : c ≠ sep)
    (h : ∀ s ∈ l, c ∉ s.data) : c ∉ (joinChar sep l).data := by
  induction l with
  | nil => simp [joinChar]
  | cons s l ih =>
    cases l with
    | nil => simpa [joinChar] using h s (by simp)
    | cons t ts =>
      rw [joinChar_data_cons sep s (t :: ts) (by simp)]
      simp only [List.mem_append, List.mem_cons, not_or]
      exact ⟨h s (by simp), hcs,
        ih (fun x hx => h x (by simp [hx]))⟩

theorem mem_insertByTimestampDesc {x l : AuditLog} {ys : List AuditLog} :
    x ∈ insertByTimestampDesc l ys ↔ x = l ∨ x ∈ ys := by
  induction ys with
  | nil => simp [insertByTimestampDesc]
  | cons y ys ih =>
    simp only [insertByTimestampDesc]
    by_cases hc : y.timestamp ≤ l.timestamp
    · simp [hc, ih]
    · simp [hc, ih]
      tauto

theorem mem_sortByTimestampDesc {x : AuditLog} {ys : List AuditLog} :
    x ∈ sortByTimestampDesc ys ↔ x ∈ ys := by
  induction ys with
  | nil => simp [sortByTimestampDesc]
  | cons y ys ih => simp [sortByTimestampDesc, mem_insertByTimestampDesc, ih]

theorem applyStrFilter_sublist (g : AuditLog → String) (a : Option String)
    (logs : List AuditLog) : (applyStrFilter g a logs).Sublist logs := by
  cases a with
  | none => exact List.Sublist.refl _
  | some s =>
    show (if s.isEmpty = true then logs else List.filter (fun l => g l == s) logs).Sublist logs
    by_cases he : s.isEmpty
    · rw [if_pos he]
    · rw [if_neg he]
      exact List.filter_sublist _

theorem applySomeFilter_sublist {β : Type} (test : AuditLog → β → Bool)
    (a : Option β) (logs : List AuditLog) :
    (applySomeFilter test a logs).Sublist logs := by
  cases a with
  | none => exact List.Sublist.refl _
  | some b => exact List.filter_sublist _

theorem getLogsFiltered_sublist (u : Option String) (rt : Option ResourceType)
    (ri : Option String) (a : Option AuditAction) (fd td : Option Nat)
    (logs : List AuditLog) : (getLogsFiltered u rt ri a fd td logs).Sublist logs := by
  unfold getLogsFiltered
  exact (applySomeFilter_sublist _ _ _).trans ((applySomeFilter_sublist _ _ _).trans
    ((applySomeFilter_sublist _ _ _).trans ((applyStrFilter_sublist _ _ _).trans
    ((applySomeFilter_sublist _ _ _).trans (applyStrFilter_sublist _ _ _)))))

theorem getLogs_result_mem {x : AuditLog} {u : Option String} {rt : Option ResourceType}
    {ri : Option String} {a : Option AuditAction} {fd td : Option Nat} {lim : Nat}
    {logs : List AuditLog} (hx : x ∈ (getLogs u rt ri a fd td lim logs).1) :
    x ∈ logs := by
  have h1 : x ∈ sortByTimestampDesc (getLogsFiltered u rt ri a fd td logs) :=
    (List.take_sublist _ _).subset hx
  exact (getLogsFiltered_sublist u rt ri a fd td logs).subset
    (mem_sortByTimestampDesc.mp h1)

theorem map_congr_mem {α β : Type} {l : List α} {f g : α → β}
    (h : ∀ a ∈ l, f a = g a) : l.map f = l.map g := by
  induction l with
  | nil => rfl
  | cons a l ih => simp [h a (by simp), ih (fun x hx => h x (by simp [hx]))]

/-- C4 (amended): export_logs in CSV format emits the fixed header and
one naive comma-joined row per returned record, with no escaping or
quoting; consequently the emitted text parses back to the original
field values only under the proviso that no field value contains the
comma delimiter or a newline. -/
theorem exportLogsCsv_parse_roundtrip_amended (env : Env) (fd td : Option Nat)
    (store : List AuditLog)
    (h : ∀ l ∈ store, ∀ f ∈ csvFieldStrings env l, ',' ∉ f.data ∧ '\n' ∉ f.data) :
    parseCsv (exportLogsCsv env fd td store).1
      = csvHeaderFields
        :: ((getLogs none none none none fd td 10000 store).1).map (csvFieldStrings env) := by
  have hmem : ∀ l ∈ (getLogs none none none none fd td 10000 store).1,
      ∀ f ∈ csvFieldStrings env l, ',' ∉ f.data ∧ '\n' ∉ f.data :=
    fun l hl => h l (getLogs_result_mem hl)
  show parseCsv (joinChar '\n' (csvHeader
      :: ((getLogs none none none none fd td 10000 store).1).map (csvRow env))) = _
  unfold parseCsv
  rw [splitString_joinChar '\n' _ (by simp) ?lines]
  case lines =>
    intro s hs
    rcases List.mem_cons.mp hs with rfl | hs'
    · decide
    · obtain ⟨l, hl, rfl⟩ := List.mem_map.mp hs'
      exact joinChar_not_mem ',' '\n' _ (by decide)
        (fun f hf => (hmem l hl f hf).2)
  rw [List.map_cons, List.map_map]
  have hhead : splitString ',' csvHeader = csvHeaderFields := rfl
  have hrows : ((getLogs none none none none fd td 10000 store).1).map
      (splitString ',' ∘ csvRow env)
      = ((getLogs none none none none fd td 10000 store).1).map (csvFieldStrings env) :=
    map_congr_mem fun l hl =>
      splitString_joinChar ',' (csvFieldStrings env l) (by simp [csvFieldStrings])
        (fun f hf => (hmem l hl f hf).1)
  rw [hhead, hrows]

/-- Closed instance of exportLogsCsv_parse_roundtrip_amended on a
store whose single entry has comma-free, newline-free fields. -/
theorem exportLogsCsv_parse_roundtrip_witness :
    parseCsv (exportLogsCsv witnessEnv none none [sampleLog "id9" 3]).1
      = csvHeaderFields
        :: ((getLogs none none none none none none 10000 [sampleLog "id9" 3]).1).map
            (csvFieldStrings witnessEnv) :=
  exportLogsCsv_parse_roundtrip_amended witnessEnv none none [sampleLog "id9" 3]
    (by decide)

/-- C4 counterexample: a resource_id containing the delimiter is
emitted unescaped, so the data row splits into eight fields and does
not parse back to the original seven field values. -/
theorem exportLogsCsv_comma_counterexample :
    ((parseCsv (exportLogsCsv witnessEnv none none [commaLog]).1).getD 1 []).length = 8
    ∧ (csvFieldStrings witnessEnv commaLog).length = 7
    ∧ (parseCsv (exportLogsCsv witnessEnv none none [commaLog]).1).getD 1 []
        ≠ csvFieldStrings witnessEnv commaLog :=
  ⟨rfl, rfl, by decide⟩

theorem lookup_setField_self {d : List (String × Value)} {f : String} {v w : Value}
    (h : d.lookup f = some w) : (setField f v d).lookup f = some v := by
  induction d with
  | nil => simp [List.lookup] at h
  | cons p d ih =>
    obtain ⟨k, u⟩ := p
    by_cases hk : f = k
    · subst hk
      simp [setField, List.lookup]
    · have h1 : (f == k) = false := beq_eq_false_iff_ne.mpr hk
      have h2 : (k == f) = false := beq_eq_false_iff_ne.mpr (Ne.symm hk)
      simp only [List.lookup, h1] at h
      simp [setField, List.lookup, h1, h2, ih h]

theorem lookup_setField_ne {d : List (String × Value)} {f g : String} {v : Value}
    (h : g ≠ f) : (setField f v d).lookup g = d.lookup g := by
  induction d with
  | nil => rfl
  | cons p d ih =>
    obtain ⟨k, u⟩ := p
    by_cases hk : (k == f) = true
    · have hg : (g == k) = false := by
        rw [beq_eq_false_iff_ne]
        intro e
        exact h (e.trans (beq_iff_eq.mp hk))
      simp [setField, hk, List.lookup, hg]
    · have hk' : (k == f) = false := by simpa using hk
      simp only [setField, hk', Bool.false_eq_true, if_false]
      cases hg : (g == k) <;> simp [List.lookup, hg, ih]

theorem setField_setField {d : List (String × Value)} {f : String} {v w : Value} :
    setField f v (setField f w d) = setField f v d := by
  induction d with
  | nil => rfl
  | cons p d ih =>
    obtain ⟨k, u⟩ := p
    cases hk : (k == f) <;> simp [setField, hk, ih]

theorem setField_same {d : List (String × Value)} {f : String} {v : Value}
    (h : d.lookup f = some v) : setField f v d = d := by
  induction d with
  | nil => rfl
  | cons p d ih =>
    obtain ⟨k, u⟩ := p
    by_cases hk : (f == k) = true
    · have hu : u = v := by simpa [List.lookup, hk] using h
      have hk' : (k == f) = true := by
        rw [beq_iff_eq] at hk ⊢
        exact hk.symm
      simp [setField, hk', hu]
    · have hk2 : (f == k) = false := by simpa using hk
      have h' : d.lookup f = some v := by simpa [List.lookup, hk2] using h
      have hk' : (k == f) = false :=
        beq_eq_false_iff_ne.mpr (Ne.symm (beq_eq_false_iff_ne.mp hk2))
      simp [setField, hk', ih h']

theorem setField_comm {d : List (String × Value)} {f g : String} {v w : Value}
    (h : f ≠ g) : setField f v (setField g w d) = setField g w (setField f v d) := by
  induction d with
  | nil => rfl
  | cons p d ih =>
    obtain ⟨k, u⟩ := p
    by_cases hkg : (k == g) = true
    · have hkf : (k == f) = false := by
        rw [beq_eq_false_iff_ne]
        intro e
        exact h ((e.symm.trans (beq_iff_eq.mp hkg)) ▸ rfl)
      simp [setField, hkg, hkf]
    · have hkg' : (k == g) = false := by simpa using hkg
      by_cases hkf : (k == f) = true
      · simp [setField, hkg', hkf]
      · have hkf' : (k == f) = false := by simpa using hkf
        simp [setField, hkg', hkf', ih]


theorem encStep_of_none {enc : String → String} {d : List (String × Value)}
    {f : String} (h : d.lookup f = none) : encStep enc d f = d := by
  simp [encStep, h]

theorem encStep_of_null {enc : String → String} {d : List (String × Value)}
    {f : String} (h : d.lookup f = some Value.vnull) : encStep enc d f = d := by
  simp [encStep, h]

theorem encStep_of_str {enc : String → String} {d : List (String × Value)}
    {f : String} {s : String} (h : d.lookup f = some (Value.vstr s)) :
    encStep enc d f = setField f (Value.vstr (enc s)) d := by
  simp [encStep, h, Value.pyStr]

theorem encStep_of_nonnull {enc : String → String} {d : List (String × Value)}
    {g : String} {v : Value} (h : d.lookup g = some v) (hv : v ≠ Value.vnull) :
    encStep enc d g = setField g (Value.vstr (enc v.pyStr)) d := by
  cases v <;> first | exact absurd rfl hv | simp [encStep, h]

theorem decStep_of_none {dec : String → Option String} {d : List (String × Value)}
    {f : String} (h : d.lookup f = none) : decStep dec d f = d := by
  simp [decStep, h]

theorem decStep_of_null {dec : String → Option String} {d : List (String × Value)}
    {f : String} (h : d.lookup f = some Value.vnull) : decStep dec d f = d := by
  simp [decStep, h]

theorem decStep_of_str {dec : String → Option String} {d : List (String × Value)}
    {f : String} {s : String} (h : d.lookup f = some (Value.vstr s)) :
    decStep dec d f = match dec s with
      | some p => setField f (Value.vstr p) d
      | none => d := by
  simp [decStep, h]

theorem decStep_of_nonstr {dec : String → Option String} {d : List (String × Value)}
    {f : String} {v : Value} (h : d.lookup f = some v)
    (hs : ∀ s, v ≠ Value.vstr s) (hn : v ≠ Value.vnull) : decStep dec d f = d := by
  cases v <;>
    first
    | exact absurd rfl hn
    | exact absurd rfl (hs _)
    | simp [decStep, h]

theorem encStep_lookup_ne {enc : String → String} {d : List (String × Value)}
    {g f : String} (h : f ≠ g) : (encStep enc d g).lookup f = d.lookup f := by
  cases hg : d.lookup g with
  | none => rw [encStep_of_none hg]
  | some v =>
    cases v <;>
      first
      | rw [encStep_of_null hg]
      | (rw [encStep_of_nonnull hg (fun e => nomatch e)]
         exact lookup_setField_ne h)

theorem decStep_lookup_ne {dec : String → Option String} {d : List (String × Value)}
    {g f : String} (h : f ≠ g) : (decStep dec d g).lookup f = d.lookup f := by
  cases hg : d.lookup g with
  | none => rw [decStep_of_none hg]
  | some v =>
    cases v with
    | vnull => rw [decStep_of_null hg]
    | vstr s =>
      rw [decStep_of_str hg]
      cases dec s with
      | none => rfl
      | some p => exact lookup_setField_ne h
    | vbool b => rw [decStep_of_nonstr hg (fun s e => nomatch e) (fun e => nomatch e)]
    | vint n => rw [decStep_of_nonstr hg (fun s e => nomatch e) (fun e => nomatch e)]
    | vrat q => rw [decStep_of_nonstr hg (fun s e => nomatch e) (fun e => nomatch e)]
    | vlist xs => rw [decStep_of_nonstr hg (fun s e => nomatch e) (fun e => nomatch e)]
    | vdict dd => rw [decStep_of_nonstr hg (fun s e => nomatch e) (fun e => nomatch e)]

theorem encStep_preserves_encImage {enc : String → String} {d : List (String × Value)}
    {g f : String}
    (hf : d.lookup f = none ∨ d.lookup f = some Value.vnull
      ∨ ∃ x, d.lookup f = some (Value.vstr (enc x))) :
    (encStep enc d g).lookup f = none ∨ (encStep enc d g).lookup f = some Value.vnull
      ∨ ∃ x, (encStep enc d g).lookup f = some (Value.vstr (enc x)) := by
  by_cases hfg : f = g
  · subst hfg
    rcases hf with h | h | ⟨x, h⟩
    · rw [encStep_of_none h]
      exact Or.inl h
    · rw [encStep_of_null h]
      exact Or.inr (Or.inl h)
    · rw [encStep_of_str h]
      exact Or.inr (Or.inr ⟨enc x, lookup_setField_self h⟩)
  · rw [encStep_lookup_ne hfg]
    exact hf

theorem encStep_self_encImage {enc : String → String} {d : List (String × Value)}
    {f : String}
    (hf : d.lookup f = none ∨ d.lookup f = some Value.vnull
      ∨ ∃ s, d.lookup f = some (Value.vstr s)) :
    (encStep enc d f).lookup f = none ∨ (encStep enc d f).lookup f = some Value.vnull
      ∨ ∃ x, (encStep enc d f).lookup f = some (Value.vstr (enc x)) := by
  rcases hf with h | h | ⟨s, h⟩
  · rw [encStep_of_none h]
    exact Or.inl h
  · rw [encStep_of_null h]
    exact Or.inr (Or.inl h)
  · rw [encStep_of_str h]
    exact Or.inr (Or.inr ⟨s, lookup_setField_self h⟩)

theorem decStep_encStep_cancel {enc : String → String} {dec : String → Option String}
    {d : List (String × Value)} {f : String} (hdec : ∀ s, dec (enc s) = some s)
    (hf : d.lookup f = none ∨ d.lookup f = some Value.vnull
      ∨ ∃ s, d.lookup f = some (Value.vstr s)) :
    decStep dec (encStep enc d f) f = d := by
  rcases hf with h | h | ⟨s, h⟩
  · rw [encStep_of_none h, decStep_of_none h]
  · rw [encStep_of_null h, decStep_of_null h]
  · rw [encStep_of_str h, decStep_of_str (lookup_setField_self h), hdec s]
    show setField f (Value.vstr s) (setField f (Value.vstr (enc s)) d) = d
    rw [setField_setField]
    exact setField_same h

theorem decStep_encStep_comm {enc : String → String} {dec : String → Option String}
    {d : List (String × Value)} {f g : String} (hfg : f ≠ g)
    (hdec : ∀ s, dec (enc s) = some s)
    (hf : d.lookup f = none ∨ d.lookup f = some Value.vnull
      ∨ ∃ x, d.lookup f = some (Value.vstr (enc x))) :
    decStep dec (encStep enc d g) f = encStep enc (decStep dec d f) g := by
  cases hg : d.lookup g with
  | none =>
    rw [encStep_of_none hg,
      encStep_of_none (show (decStep dec d f).lookup g = none by
        rw [decStep_lookup_ne (Ne.symm hfg)]; exact hg)]
  | some v =>
    by_cases hv : v = Value.vnull
    · subst hv
      rw [encStep_of_null hg,
        encStep_of_null (show (decStep dec d f).lookup g = some Value.vnull by
          rw [decStep_lookup_ne (Ne.symm hfg)]; exact hg)]
    · rw [encStep_of_nonnull hg hv,
        encStep_of_nonnull (show (decStep dec d f).lookup g = some v by
          rw [decStep_lookup_ne (Ne.symm hfg)]; exact hg) hv]
      rcases hf with h | h | ⟨x, h⟩
      · rw [decStep_of_none (show (setField g (Value.vstr (enc v.pyStr)) d).lookup f = none by
            rw [lookup_setField_ne hfg]; exact h),
          decStep_of_none h]
      · rw [decStep_of_null (show (setField g (Value.vstr (enc v.pyStr)) d).lookup f
              = some Value.vnull by rw [lookup_setField_ne hfg]; exact h),
          decStep_of_null h]
      · rw [decStep_of_str (show (setField g (Value.vstr (enc v.pyStr)) d).lookup f
              = some (Value.vstr (enc x)) by rw [lookup_setField_ne hfg]; exact h),
          decStep_of_str h, hdec x]
        show setField f (Value.vstr x) (setField g (Value.vstr (enc v.pyStr)) d)
            = setField g (Value.vstr (enc v.pyStr)) (setField f (Value.vstr x) d)
        exact setField_comm hfg

theorem decStep_encryptDict {enc : String → String} {dec : String → Option String}
    (hdec : ∀ s, dec (enc s) = some s) (fs : List String) :
    ∀ (d : List (String × Value)) (f : String),
      (d.lookup f = none ∨ d.lookup f = some Value.vnull
        ∨ ∃ x, d.lookup f = some (Value.vstr (enc x))) →
      decStep dec (encryptDict enc d fs) f = encryptDict enc (decStep dec d f) fs := by
  induction fs with
  | nil => intro d f _; rfl
  | cons g fs ih =>
    intro d f hf
    show decStep dec (encryptDict enc (encStep enc d g) fs) f
        = encryptDict enc (encStep enc (decStep dec d f) g) fs
    by_cases hfg : f = g
    · subst hfg
      rw [ih (encStep enc d f) f (encStep_preserves_encImage hf)]
      have heq : decStep dec (encStep enc d f) f = encStep enc (decStep dec d f) f := by
        rcases hf with h | h | ⟨x, h⟩
        · rw [encStep_of_none h, decStep_of_none h, encStep_of_none h]
        · rw [encStep_of_null h, decStep_of_null h, encStep_of_null h]
        · rw [encStep_of_str h, decStep_of_str (lookup_setField_self h), hdec (enc x),
            decStep_of_str h, hdec x,
            encStep_of_str (lookup_setField_self h)]
          show setField f (Value.vstr (enc x)) (setField f (Value.vstr (enc (enc x))) d)
              = setField f (Value.vstr (enc x)) (setField f (Value.vstr x) d)
          rw [setField_setField, setField_setField]
      rw [heq]
    · rw [ih (encStep enc d g) f (encStep_preserves_encImage hf),
        decStep_encStep_comm hfg hdec hf]

/-- C9 (amended): decrypt_dict inverts encrypt_dict for every record
and field-name list in which each named, present, non-null field holds
a string value - absent, null and unnamed fields pass through
untouched.  For a non-string value the inverse fails, because
encrypt_dict encrypts str(value) and decrypt_dict restores the string
rendering, not the original value. -/
theorem encryptDict_roundtrip_amended (enc : String → String)
    (dec : String → Option String) (hdec : ∀ s, dec (enc s) = some s)
    (data : List (String × Value)) (fs : List String)
    (h : ∀ f ∈ fs, data.lookup f = none ∨ data.lookup f = some Value.vnull
        ∨ ∃ s, data.lookup f = some (Value.vstr s)) :
    decryptDict dec (encryptDict enc data fs) fs = data := by
  induction fs generalizing data with
  | nil => rfl
  | cons f fs ih =>
    have hf := h f (by simp)
    show decryptDict dec
        (decStep dec (encryptDict enc (encStep enc data f) fs) f) fs = data
    rw [decStep_encryptDict hdec fs (encStep enc data f) f (encStep_self_encImage hf),
      decStep_encStep_cancel hdec hf]
    exact ih data (fun g hg => h g (by simp [hg]))

theorem concreteDec_concreteEnc (s : String) : concreteDec (concreteEnc s) = some s := by
  cases s
  rfl

/-- Closed instance of encryptDict_roundtrip_amended: a record of
string and null PII fields round-trips through the concrete cipher,
including a named field absent from the record. -/
theorem encryptDict_roundtrip_witness :
    decryptDict concreteDec (encryptDict concreteEnc
        [("phone", Value.vstr "0501234567"), ("email", Value.vnull),
         ("name", Value.vstr "Ali")] ["phone", "email", "address"])
      ["phone", "email", "address"]
      = [("phone", Value.vstr "0501234567"), ("email", Value.vnull),
         ("name", Value.vstr "Ali")] :=
  encryptDict_roundtrip_amended concreteEnc concreteDec concreteDec_concreteEnc _ _
    (by
      intro f hf
      simp only [List.mem_cons, List.not_mem_nil, or_false] at hf
      rcases hf with rfl | rfl | rfl
      · exact Or.inr (Or.inr ⟨"0501234567", rfl⟩)
      · exact Or.inr (Or.inl rfl)
      · exact Or.inl rfl)

/-- C9 counterexample: an integer-valued field is coerced through
str() on encryption, so the round trip yields the string rendering
"123" instead of the original integer 123. -/
theorem encryptDict_roundtrip_counterexample :
    decryptDict concreteDec (encryptDict concreteEnc
        [("phone", Value.vint 123)] ["phone"]) ["phone"]
      = [("phone", Value.vstr "123")]
    ∧ [("phone", Value.vstr "123")] ≠ ([("phone", Value.vint 123)] : List (String × Value)) :=
  ⟨rfl, by simp⟩
